import Mathlib

/-!
Verification of the planar two-link robot-arm trajectory pipeline
(assignment_3): trajectory generation by linear interpolation, the
velocity-clamping filter, and forward kinematics.

The C++ source stores angles and velocities in `double`; we model the
real-valued arithmetic over a `LinearOrderedField` (the templated helpers
`sign` and `interpolate_linear` are generic in the source as well), and
instantiate at `ℝ` for the trigonometric forward kinematics.
-/

namespace Robot

/-- Joint state of the two-link arm: joint angles and commanded joint
velocities, mirroring `struct JointState` in robot_types.hpp.
Velocities carry the default member initializer 0. -/
structure JointState (α : Type) [Zero α] where
  theta1 : α
  theta2 : α
  dtheta1 : α := 0
  dtheta2 : α := 0
  deriving DecidableEq

/-- Cartesian position of the end effector, mirroring
`struct EndEffectorPose` in robot_types.hpp. -/
structure EndEffectorPose where
  x : ℝ
  y : ℝ

variable {α : Type} [LinearOrderedField α]

/-- The templated `sign` helper from robot_types.hpp:
negative inputs map to -1, everything else (including 0) to +1. -/
def sign (x : α) : α :=
  if x < 0 then -1 else 1

/-- `interpolate_linear` from robot_control.hpp: clamp alpha to [0,1],
interpolate the joint angles linearly, and set both velocity fields to
the total angular displacement of the move. -/
def interpolate_linear (start goal : JointState α) (alpha : α) : JointState α :=
  let a := if alpha < 0 then 0 else if 1 < alpha then 1 else alpha
  let d_theta1 := goal.theta1 - start.theta1
  let d_theta2 := goal.theta2 - start.theta2
  { theta1 := start.theta1 + a * d_theta1
    theta2 := start.theta2 + a * d_theta2
    dtheta1 := d_theta1
    dtheta2 := d_theta2 }

/-- The velocity-clamping lambda defined in main.cpp, with the captured
constant `k_vel_limit` generalized to a parameter `limit`: angles pass
through, each velocity becomes `sign(v) * min(|v|, |limit|)`. -/
def filter (limit : α) (js : JointState α) : JointState α :=
  { theta1 := js.theta1
    theta2 := js.theta2
    dtheta1 := sign js.dtheta1 * min |js.dtheta1| |limit|
    dtheta2 := sign js.dtheta2 * min |js.dtheta2| |limit| }

/-- `apply_filter` from robot_control.cpp: the range-for loop replaces
each element of the trajectory, in index order, by the filtered value of
that same element. -/
def apply_filter (traj : List (JointState α)) (f : JointState α → JointState α) :
    List (JointState α) :=
  match traj with
  | [] => []
  | s :: rest => f s :: apply_filter rest f

/-- The trajectory-generation loop of main.cpp, generalized from the
constant `k_num_samples` to a parameter `n` as in the spec contract:
sample `i` is `interpolate_linear` at `alpha = i * (1 / (n - 1))`
(`k_alpha_step = 1.0 / (k_num_samples - 1)`). -/
def generate (start goal : JointState α) (n : ℕ) : List (JointState α) :=
  (List.range n).map
    (fun i : ℕ => interpolate_linear start goal ((i : α) * (1 / ((n : α) - 1))))

/-- `k_link1` from robot_types.hpp. -/
def k_link1 : ℝ := 0.5

/-- `k_link2` from robot_types.hpp. -/
def k_link2 : ℝ := 0.3

/-- `k_vel_limit` from robot_types.hpp, the constant 1.0 rad/s. -/
def k_vel_limit : ℝ := 1

/-- `k_num_samples` from robot_types.hpp. -/
def k_num_samples : ℕ := 21

/-- `forward_kinematics` from robot_kinematics.hpp, instantiated at the
real numbers (the source computes with `double` and `cos`/`sin`). -/
noncomputable def forward_kinematics (s : JointState ℝ) (L1 L2 : ℝ) : EndEffectorPose :=
  { x := L1 * Real.cos s.theta1 + L2 * Real.cos (s.theta1 + s.theta2)
    y := L1 * Real.sin s.theta1 + L2 * Real.sin (s.theta1 + s.theta2) }

theorem sign_of_neg {x : α} (h : x < 0) : sign x = -1 := by
  simp [sign, h]

theorem sign_of_nonneg {x : α} (h : 0 ≤ x) : sign x = 1 := by
  simp [sign, not_lt.mpr h]

theorem apply_filter_eq_map (traj : List (JointState α))
    (f : JointState α → JointState α) : apply_filter traj f = traj.map f := by
  induction traj with
  | nil => rfl
  | cons s rest ih => simp [apply_filter, ih]

theorem abs_sign (x : α) : |sign x| = 1 := by
  unfold sign
  split <;> simp

theorem min_abs_nonneg (limit x : α) : 0 ≤ min |x| |limit| :=
  le_min (abs_nonneg x) (abs_nonneg limit)

theorem abs_clamp (limit x : α) :
    abs (sign x * min |x| |limit|) = min |x| |limit| := by
  rw [abs_mul, abs_sign, one_mul, abs_of_nonneg (min_abs_nonneg limit x)]

theorem clamp_idem (limit x : α) :
    sign (sign x * min |x| |limit|) * min (abs (sign x * min |x| |limit|)) |limit| =
      sign x * min |x| |limit| := by
  rw [abs_clamp, min_assoc, min_self]
  rcases eq_or_lt_of_le (min_abs_nonneg limit x) with hm | hm
  · rw [← hm, mul_zero, mul_zero]
  · rcases lt_or_ge x 0 with hx | hx
    · rw [sign_of_neg hx, neg_one_mul, sign_of_neg (neg_lt_zero.mpr hm), neg_one_mul]
    · rw [sign_of_nonneg hx, one_mul, sign_of_nonneg hm.le, one_mul]

theorem clamp_sign (limit x : α) (hlim : 0 < limit) (hx : x ≠ 0) :
    sign (sign x * min |x| |limit|) = sign x := by
  have hm : 0 < min |x| |limit| := lt_min (abs_pos.mpr hx) (abs_pos.mpr hlim.ne')
  rcases lt_or_ge x 0 with h | h
  · rw [sign_of_neg h, neg_one_mul, sign_of_neg (neg_lt_zero.mpr hm)]
  · rw [sign_of_nonneg h, one_mul, sign_of_nonneg hm.le]

theorem filter_filter (limit : α) (js : JointState α) :
    filter limit (filter limit js) = filter limit js := by
  simp only [filter, JointState.mk.injEq, true_and]
  exact ⟨clamp_idem limit js.dtheta1, clamp_idem limit js.dtheta2⟩

/-- C5: the velocity fields of every interpolated sample are the constant
total displacement goal.theta_k - start.theta_k, for every alpha. -/
theorem raw_velocity_semantics (start goal : JointState α) (alpha : α) :
    (interpolate_linear start goal alpha).dtheta1 = goal.theta1 - start.theta1 ∧
    (interpolate_linear start goal alpha).dtheta2 = goal.theta2 - start.theta2 := by
  constructor <;> rfl

/-- C6: the velocity filter leaves both angular positions unchanged. -/
theorem filter_frame (limit : α) (js : JointState α) :
    (filter limit js).theta1 = js.theta1 ∧ (filter limit js).theta2 = js.theta2 := by
  constructor <;> rfl

/-- C9: for each joint, the filtered velocity is
sign(dtheta) * min(|dtheta|, limit) whenever limit is nonnegative, the
sign convention maps 0 to +1, and a zero input velocity yields a zero
output velocity. -/
theorem filter_formula (limit : α) (js : JointState α) (hlim : 0 ≤ limit) :
    (filter limit js).dtheta1 = sign js.dtheta1 * min |js.dtheta1| limit ∧
    (filter limit js).dtheta2 = sign js.dtheta2 * min |js.dtheta2| limit ∧
    sign (0 : α) = 1 ∧
    (js.dtheta1 = 0 → (filter limit js).dtheta1 = 0) ∧
    (js.dtheta2 = 0 → (filter limit js).dtheta2 = 0) := by
  refine ⟨?_, ?_, sign_of_nonneg le_rfl, ?_, ?_⟩
  · simp [filter, abs_of_nonneg hlim]
  · simp [filter, abs_of_nonneg hlim]
  · intro h
    simp [filter, h, sign_of_nonneg (le_refl (0 : α)), min_eq_left (abs_nonneg limit)]
  · intro h
    simp [filter, h, sign_of_nonneg (le_refl (0 : α)), min_eq_left (abs_nonneg limit)]

theorem filter_formula_witness :
    (0 : ℚ) ≤ 2 ∧
    ((filter 2 (⟨0, 0, 1, 0⟩ : JointState ℚ)).dtheta1 = sign (1 : ℚ) * min |(1 : ℚ)| 2 ∧
     (filter 2 (⟨0, 0, 1, 0⟩ : JointState ℚ)).dtheta2 = sign (0 : ℚ) * min |(0 : ℚ)| 2 ∧
     sign (0 : ℚ) = 1 ∧
     ((1 : ℚ) = 0 → (filter 2 (⟨0, 0, 1, 0⟩ : JointState ℚ)).dtheta1 = 0) ∧
     ((0 : ℚ) = 0 → (filter 2 (⟨0, 0, 1, 0⟩ : JointState ℚ)).dtheta2 = 0)) :=
  ⟨by norm_num, filter_formula 2 ⟨0, 0, 1, 0⟩ (by norm_num)⟩

/-- C2: after one pass of the velocity filter, every sample has both
velocity magnitudes at most the (positive) limit, and the sign of each
nonzero input velocity is preserved. -/
theorem filter_clamp_invariant (limit : α) (traj : List (JointState α))
    (hlim : 0 < limit) (i : ℕ) (js js' : JointState α)
    (h : traj[i]? = some js)
    (h' : (apply_filter traj (filter limit))[i]? = some js') :
    |js'.dtheta1| ≤ limit ∧ |js'.dtheta2| ≤ limit ∧
    (js.dtheta1 ≠ 0 → sign js'.dtheta1 = sign js.dtheta1) ∧
    (js.dtheta2 ≠ 0 → sign js'.dtheta2 = sign js.dtheta2) := by
  rw [apply_filter_eq_map, List.getElem?_map, h, Option.map_some'] at h'
  have hjs : js' = filter limit js := by
    exact (Option.some.injEq _ _).mp h'.symm
  subst hjs
  have hub1 : |(filter limit js).dtheta1| ≤ limit := by
    have e : |(filter limit js).dtheta1| = min |js.dtheta1| |limit| := abs_clamp limit js.dtheta1
    rw [e]
    exact le_trans (min_le_right |js.dtheta1| |limit|) (le_of_eq (abs_of_pos hlim))
  have hub2 : |(filter limit js).dtheta2| ≤ limit := by
    have e : |(filter limit js).dtheta2| = min |js.dtheta2| |limit| := abs_clamp limit js.dtheta2
    rw [e]
    exact le_trans (min_le_right |js.dtheta2| |limit|) (le_of_eq (abs_of_pos hlim))
  exact ⟨hub1, hub2, fun hne => clamp_sign limit js.dtheta1 hlim hne,
    fun hne => clamp_sign limit js.dtheta2 hlim hne⟩

theorem filter_clamp_invariant_witness :
    (0 : ℚ) < 2 ∧
    ([(⟨0, 0, -5, 1⟩ : JointState ℚ)])[0]? = some ⟨0, 0, -5, 1⟩ ∧
    (apply_filter [(⟨0, 0, -5, 1⟩ : JointState ℚ)] (filter 2))[0]? =
      some (filter 2 (⟨0, 0, -5, 1⟩ : JointState ℚ)) ∧
    (|(filter 2 (⟨0, 0, -5, 1⟩ : JointState ℚ)).dtheta1| ≤ 2 ∧
     |(filter 2 (⟨0, 0, -5, 1⟩ : JointState ℚ)).dtheta2| ≤ 2 ∧
     ((-5 : ℚ) ≠ 0 → sign (filter 2 (⟨0, 0, -5, 1⟩ : JointState ℚ)).dtheta1 = sign (-5 : ℚ)) ∧
     ((1 : ℚ) ≠ 0 → sign (filter 2 (⟨0, 0, -5, 1⟩ : JointState ℚ)).dtheta2 = sign (1 : ℚ))) :=
  ⟨by norm_num, rfl, rfl,
    filter_clamp_invariant 2 [⟨0, 0, -5, 1⟩] (by norm_num) 0 ⟨0, 0, -5, 1⟩
      (filter 2 (⟨0, 0, -5, 1⟩ : JointState ℚ)) rfl rfl⟩

/-- C4: applying the velocity filter to a trajectory twice gives the same
trajectory as applying it once. -/
theorem filter_idempotent (limit : α) (traj : List (JointState α)) (_hlim : 0 < limit) :
    apply_filter (apply_filter traj (filter limit)) (filter limit) =
      apply_filter traj (filter limit) := by
  rw [apply_filter_eq_map, apply_filter_eq_map, List.map_map]
  exact List.map_congr_left (fun js _ => filter_filter limit js)

theorem filter_idempotent_witness :
    (0 : ℚ) < 1 ∧
    apply_filter (apply_filter [(⟨0, 0, 3, 0⟩ : JointState ℚ)] (filter 1)) (filter 1) =
      apply_filter [(⟨0, 0, 3, 0⟩ : JointState ℚ)] (filter 1) :=
  ⟨by norm_num, filter_idempotent 1 [⟨0, 0, 3, 0⟩] (by norm_num)⟩

/-- C10: apply_filter preserves the length of the trajectory and the
element at each index of the result is the filter applied to the old
element at that same index. -/
theorem apply_filter_pointwise (traj : List (JointState α))
    (f : JointState α → JointState α) :
    (apply_filter traj f).length = traj.length ∧
    ∀ i : ℕ, (apply_filter traj f)[i]? = (traj[i]?).map f := by
  rw [apply_filter_eq_map]
  exact ⟨List.length_map traj f, fun i => List.getElem?_map f traj i⟩

theorem generate_getElem (s g : JointState α) (n i : ℕ) (h : i < n) :
    (generate s g n)[i]? =
      some (interpolate_linear s g ((i : α) * (1 / ((n : α) - 1)))) := by
  unfold generate
  rw [List.getElem?_map, List.getElem?_range h, Option.map_some']

theorem interpolate_linear_zero (s g : JointState α) :
    (interpolate_linear s g 0).theta1 = s.theta1 ∧
    (interpolate_linear s g 0).theta2 = s.theta2 := by
  constructor <;>
  · simp only [interpolate_linear]
    norm_num

theorem interpolate_linear_one (s g : JointState α) :
    (interpolate_linear s g 1).theta1 = g.theta1 ∧
    (interpolate_linear s g 1).theta2 = g.theta2 := by
  have h0 : ¬ (1 : α) < 0 := by norm_num
  have h1 : ¬ (1 : α) < 1 := lt_irrefl 1
  constructor <;>
  · simp only [interpolate_linear, h0, h1, if_false, one_mul]
    ring

/-- C1: for every start and goal and every number of samples at least 2,
the generated trajectory begins exactly at the start angles and ends
exactly at the goal angles, for both joints. -/
theorem endpoint_exactness (start goal : JointState α) (n : ℕ) (hn : 2 ≤ n) :
    ((generate start goal n)[0]?).map JointState.theta1 = some start.theta1 ∧
    ((generate start goal n)[0]?).map JointState.theta2 = some start.theta2 ∧
    ((generate start goal n)[n - 1]?).map JointState.theta1 = some goal.theta1 ∧
    ((generate start goal n)[n - 1]?).map JointState.theta2 = some goal.theta2 := by
  have h0 : (0 : ℕ) < n := by omega
  have hlast : n - 1 < n := by omega
  have hone : (1 : ℕ) ≤ n := by omega
  have hcast : ((n - 1 : ℕ) : α) = (n : α) - 1 := by
    rw [Nat.cast_sub hone, Nat.cast_one]
  have hne : (n : α) - 1 ≠ 0 := by
    have h2 : (2 : α) ≤ (n : α) := by exact_mod_cast hn
    have hpos : (0 : α) < (n : α) - 1 := by linarith
    exact hpos.ne'
  have e0 := generate_getElem start goal n 0 h0
  have elast := generate_getElem start goal n (n - 1) hlast
  rw [Nat.cast_zero, zero_mul] at e0
  rw [hcast, mul_one_div, div_self hne] at elast
  rw [e0, elast]
  simp only [Option.map_some']
  exact ⟨congrArg some (interpolate_linear_zero start goal).1,
    congrArg some (interpolate_linear_zero start goal).2,
    congrArg some (interpolate_linear_one start goal).1,
    congrArg some (interpolate_linear_one start goal).2⟩

theorem endpoint_exactness_witness :
    2 ≤ 3 ∧
    (((generate (⟨0, 0, 0, 0⟩ : JointState ℚ) ⟨5, 7, 0, 0⟩ 3)[0]?).map JointState.theta1 =
        some (0 : ℚ) ∧
     ((generate (⟨0, 0, 0, 0⟩ : JointState ℚ) ⟨5, 7, 0, 0⟩ 3)[0]?).map JointState.theta2 =
        some (0 : ℚ) ∧
     ((generate (⟨0, 0, 0, 0⟩ : JointState ℚ) ⟨5, 7, 0, 0⟩ 3)[3 - 1]?).map JointState.theta1 =
        some (5 : ℚ) ∧
     ((generate (⟨0, 0, 0, 0⟩ : JointState ℚ) ⟨5, 7, 0, 0⟩ 3)[3 - 1]?).map JointState.theta2 =
        some (7 : ℚ)) :=
  ⟨by decide, endpoint_exactness ⟨0, 0, 0, 0⟩ ⟨5, 7, 0, 0⟩ 3 (by decide)⟩

/-- C8 counterexample: with start (0,0) and goal (1,0) at rest, the
two-sample trajectory is not literally the sequence [start, goal],
because the generated samples carry the displacement in their velocity
fields while the given start state has zero velocity. -/
theorem two_sample_counterexample :
    generate (⟨0, 0, 0, 0⟩ : JointState ℚ) ⟨1, 0, 0, 0⟩ 2 ≠
      [⟨0, 0, 0, 0⟩, ⟨1, 0, 0, 0⟩] := by
  intro h
  have h0 : (generate (⟨0, 0, 0, 0⟩ : JointState ℚ) ⟨1, 0, 0, 0⟩ 2)[0]? =
      some (interpolate_linear ⟨0, 0, 0, 0⟩ ⟨1, 0, 0, 0⟩ ((0 : ℚ) * (1 / ((2 : ℚ) - 1)))) :=
    generate_getElem _ _ 2 0 (by norm_num)
  rw [h] at h0
  have h1 : some (⟨0, 0, 0, 0⟩ : JointState ℚ) =
      some (interpolate_linear ⟨0, 0, 0, 0⟩ ⟨1, 0, 0, 0⟩ ((0 : ℚ) * (1 / ((2 : ℚ) - 1)))) := h0
  have h2 := congrArg JointState.dtheta1 (Option.some.inj h1)
  simp [interpolate_linear] at h2

/-- C8 (amended): a two-sample trajectory consists of exactly two
samples, with no interior points, whose angular components are those of
start and goal respectively. -/
theorem two_sample_boundary (s g : JointState α) :
    (generate s g 2).length = 2 ∧
    (generate s g 2).map JointState.theta1 = [s.theta1, g.theta1] ∧
    (generate s g 2).map JointState.theta2 = [s.theta2, g.theta2] := by
  have ha0 : (0 : α) * (1 / ((2 : α) - 1)) = 0 := by norm_num
  have ha1 : (1 : α) * (1 / ((2 : α) - 1)) = 1 := by norm_num
  have hgen : generate s g 2 = [interpolate_linear s g 0, interpolate_linear s g 1] := by
    simp only [generate, show List.range 2 = [0, 1] from rfl, List.map_cons, List.map_nil,
      Nat.cast_zero, Nat.cast_one, Nat.cast_ofNat, ha0, ha1]
  rw [hgen]
  refine ⟨rfl, ?_, ?_⟩
  · simp only [List.map_cons, List.map_nil, (interpolate_linear_zero s g).1,
      (interpolate_linear_one s g).1]
  · simp only [List.map_cons, List.map_nil, (interpolate_linear_zero s g).2,
      (interpolate_linear_one s g).2]

/-- C3: for positive link lengths the end effector always lies in the
reachable annulus between the radii |L1 - L2| and L1 + L2. -/
theorem fk_reach_bounds (s : JointState ℝ) (L1 L2 : ℝ) (h1 : 0 < L1) (h2 : 0 < L2) :
    |L1 - L2| ≤
      Real.sqrt ((forward_kinematics s L1 L2).x ^ 2 + (forward_kinematics s L1 L2).y ^ 2) ∧
    Real.sqrt ((forward_kinematics s L1 L2).x ^ 2 + (forward_kinematics s L1 L2).y ^ 2) ≤
      L1 + L2 := by
  have pyth1 := Real.sin_sq_add_cos_sq s.theta1
  have pyth2 := Real.sin_sq_add_cos_sq (s.theta1 + s.theta2)
  have harg : s.theta1 + s.theta2 - s.theta1 = s.theta2 := by ring
  have hc := congrArg Real.cos harg
  rw [Real.cos_sub] at hc
  have hxy : (forward_kinematics s L1 L2).x ^ 2 + (forward_kinematics s L1 L2).y ^ 2 =
      L1 ^ 2 + L2 ^ 2 + 2 * L1 * L2 * Real.cos s.theta2 := by
    simp only [forward_kinematics]
    linear_combination (L1 ^ 2) * pyth1 + (L2 ^ 2) * pyth2 + (2 * L1 * L2) * hc
  have hL : 0 < L1 * L2 := mul_pos h1 h2
  have hcos1 := Real.cos_le_one s.theta2
  have hcosm1 := Real.neg_one_le_cos s.theta2
  constructor
  · have key : 0 ≤ L1 * L2 * (1 + Real.cos s.theta2) :=
      mul_nonneg hL.le (by linarith)
    have hlb : (L1 - L2) ^ 2 ≤
        (forward_kinematics s L1 L2).x ^ 2 + (forward_kinematics s L1 L2).y ^ 2 := by
      rw [hxy]; nlinarith [key]
    calc |L1 - L2| = Real.sqrt ((L1 - L2) ^ 2) := (Real.sqrt_sq_eq_abs (L1 - L2)).symm
      _ ≤ _ := Real.sqrt_le_sqrt hlb
  · have key : 0 ≤ L1 * L2 * (1 - Real.cos s.theta2) :=
      mul_nonneg hL.le (by linarith)
    have hub : (forward_kinematics s L1 L2).x ^ 2 + (forward_kinematics s L1 L2).y ^ 2 ≤
        (L1 + L2) ^ 2 := by
      rw [hxy]; nlinarith [key]
    calc Real.sqrt ((forward_kinematics s L1 L2).x ^ 2 + (forward_kinematics s L1 L2).y ^ 2)
        ≤ Real.sqrt ((L1 + L2) ^ 2) := Real.sqrt_le_sqrt hub
      _ = L1 + L2 := Real.sqrt_sq (by positivity)

theorem fk_reach_bounds_witness :
    (0 : ℝ) < 1 ∧ (0 : ℝ) < 1 ∧
    (|(1 : ℝ) - 1| ≤
        Real.sqrt ((forward_kinematics ⟨0, 0, 0, 0⟩ 1 1).x ^ 2 +
          (forward_kinematics ⟨0, 0, 0, 0⟩ 1 1).y ^ 2) ∧
     Real.sqrt ((forward_kinematics ⟨0, 0, 0, 0⟩ 1 1).x ^ 2 +
          (forward_kinematics ⟨0, 0, 0, 0⟩ 1 1).y ^ 2) ≤ 1 + 1) :=
  ⟨one_pos, one_pos, fk_reach_bounds ⟨0, 0, 0, 0⟩ 1 1 one_pos one_pos⟩

/-- The start state of main.cpp: both angles zero, velocities at their
default zero. -/
def start0 : JointState ℝ := ⟨0, 0, 0, 0⟩

/-- The goal state of main.cpp: angles -pi and -pi/6, velocities at
their default zero. -/
noncomputable def goal0 : JointState ℝ := ⟨-Real.pi, -(Real.pi / 6), 0, 0⟩

/-- C7: in the default scenario of main.cpp (21 samples from rest at
(0,0) to (-pi, -pi/6), links 0.5 and 0.3, limit 1), sample 0 carries the
start angles, sample 20 carries the goal angles, forward kinematics of
sample 0 is the fully stretched pose (0.8, 0), and after filtering every
sample has velocity magnitudes 1 and pi/6. -/
theorem default_scenario :
    ((generate start0 goal0 k_num_samples)[0]?).map JointState.theta1 = some 0 ∧
    ((generate start0 goal0 k_num_samples)[0]?).map JointState.theta2 = some 0 ∧
    ((generate start0 goal0 k_num_samples)[20]?).map JointState.theta1 = some (-Real.pi) ∧
    ((generate start0 goal0 k_num_samples)[20]?).map JointState.theta2 =
      some (-(Real.pi / 6)) ∧
    ((generate start0 goal0 k_num_samples)[0]?).map
        (fun js => forward_kinematics js k_link1 k_link2) = some ⟨0.8, 0⟩ ∧
    (apply_filter (generate start0 goal0 k_num_samples) (filter k_vel_limit)).map
        (fun js => (|js.dtheta1|, |js.dtheta2|)) =
      List.replicate 21 (1, Real.pi / 6) := by
  have hπ1 : (1 : ℝ) ≤ Real.pi := by linarith [Real.pi_gt_three]
  have hπ6 : Real.pi / 6 ≤ 1 := by linarith [Real.pi_lt_d2]
  have habs1 : |(-Real.pi - 0 : ℝ)| = Real.pi := by
    rw [sub_zero, abs_neg, abs_of_pos Real.pi_pos]
  have habs2 : |(-(Real.pi / 6) - 0 : ℝ)| = Real.pi / 6 := by
    rw [sub_zero, abs_neg, abs_of_nonneg (by positivity : (0 : ℝ) ≤ Real.pi / 6)]
  have key : ∀ a : ℝ,
      (|(filter k_vel_limit (interpolate_linear start0 goal0 a)).dtheta1|,
       |(filter k_vel_limit (interpolate_linear start0 goal0 a)).dtheta2|) =
        ((1 : ℝ), Real.pi / 6) := by
    intro a
    have e1 : (filter k_vel_limit (interpolate_linear start0 goal0 a)).dtheta1 =
        sign (-Real.pi - 0) * min |(-Real.pi - 0 : ℝ)| |(1 : ℝ)| := rfl
    have e2 : (filter k_vel_limit (interpolate_linear start0 goal0 a)).dtheta2 =
        sign (-(Real.pi / 6) - 0) * min |(-(Real.pi / 6) - 0 : ℝ)| |(1 : ℝ)| := rfl
    rw [Prod.mk.injEq]
    constructor
    · rw [e1, abs_clamp 1 (-Real.pi - 0), habs1, abs_one]
      exact min_eq_right hπ1
    · rw [e2, abs_clamp 1 (-(Real.pi / 6) - 0), habs2, abs_one]
      exact min_eq_left hπ6
  simp only [k_num_samples]
  have e0 := generate_getElem start0 goal0 21 0 (by norm_num)
  have e20 := generate_getElem start0 goal0 21 20 (by norm_num)
  have a0 : ((0 : ℕ) : ℝ) * (1 / (((21 : ℕ) : ℝ) - 1)) = 0 := by norm_num
  have a20 : ((20 : ℕ) : ℝ) * (1 / (((21 : ℕ) : ℝ) - 1)) = 1 := by norm_num
  rw [a0] at e0
  rw [a20] at e20
  refine ⟨?_, ?_, ?_, ?_, ?_, ?_⟩
  · rw [e0, Option.map_some', (interpolate_linear_zero start0 goal0).1]
    rfl
  · rw [e0, Option.map_some', (interpolate_linear_zero start0 goal0).2]
    rfl
  · rw [e20, Option.map_some', (interpolate_linear_one start0 goal0).1]
    rfl
  · rw [e20, Option.map_some', (interpolate_linear_one start0 goal0).2]
    rfl
  · rw [e0, Option.map_some']
    refine congrArg some ?_
    have h1 : (interpolate_linear start0 goal0 0).theta1 = 0 :=
      (interpolate_linear_zero start0 goal0).1
    have h2 : (interpolate_linear start0 goal0 0).theta2 = 0 :=
      (interpolate_linear_zero start0 goal0).2
    norm_num [forward_kinematics, h1, h2, Real.cos_zero, Real.sin_zero,
      k_link1, k_link2, EndEffectorPose.mk.injEq]
  · refine List.eq_replicate_iff.2 ⟨?_, ?_⟩
    · simp [apply_filter_eq_map, generate]
    · intro b hb
      simp only [apply_filter_eq_map, generate, List.map_map, List.mem_map,
        List.mem_range] at hb
      obtain ⟨i, _, rfl⟩ := hb
      exact key _

end Robot
